import Mathlib

/-!
Shallow embedding of the RedHawk-Hunter backend (src/backend/scanner.py,
src/backend/app.py) and proofs of the specification's claims about it.

Python strings are modelled as Lean `String`; Python dictionaries holding a
finding are modelled by the `Finding` structure whose fields are the keys the
code reads (`severity`, `description`, `tool`, `title`), each `Option String`
(`none` = key absent; `str()` coercion of a non-string value is taken as
already applied). The fixed five-key severity dictionary is the `SevCounts`
structure. File systems and the in-memory scan registry are association
lists.
-/

/-- Python `str.lower()` restricted to ASCII case folding, as used by the
code on severity strings, filenames and the `ai` form field. -/
def pyLower (s : String) : String := ⟨s.data.map Char.toLower⟩

/-- One step of Python `str.title()`: the boolean says whether the previous
character was alphabetic. -/
def pyTitleAux : List Char → Bool → List Char
  | [], _ => []
  | c :: rest, prevAlpha =>
    if c.isAlpha then
      (if prevAlpha then c.toLower else c.toUpper) :: pyTitleAux rest true
    else
      c :: pyTitleAux rest false

/-- Python `str.title()` (ASCII model): first letter of each alphabetic run
is uppercased, the rest lowercased. -/
def pyTitle (s : String) : String := ⟨pyTitleAux s.data false⟩

/-- Python `str.endswith(suffix)`. -/
def strEndsWith (s suffix : String) : Bool := suffix.data.isSuffixOf s.data

/-- Python `"\n".join(lines)`. -/
def joinLines : List String → String
  | [] => ""
  | [a] => a
  | a :: b :: rest => a ++ "\n" ++ joinLines (b :: rest)

/-- A Finding-shaped mapping: the fields of the Python dict that the code
reads. `none` models an absent key. -/
structure Finding where
  severity : Option String := none
  description : Option String := none
  tool : Option String := none
  title : Option String := none
deriving Repr, DecidableEq, Inhabited

/-- The fixed five-key severity-counts mapping
`{"critical": _, "high": _, "medium": _, "low": _, "info": _}`. -/
structure SevCounts where
  critical : Nat
  high : Nat
  medium : Nat
  low : Nat
  info : Nat
deriving Repr, DecidableEq, Inhabited

/-- `sum(sev_counts.values())` in dict order critical, high, medium, low,
info. -/
def sumCounts (c : SevCounts) : Nat :=
  c.critical + c.high + c.medium + c.low + c.info

/-- Membership of a lowered severity string among the five dict keys
(`sev not in severities` test in `aggregate_by_severity`). -/
def recognized (s : String) : Bool :=
  s = "critical" || s = "high" || s = "medium" || s = "low" || s = "info"

/-- `sev = str(item.get("severity", "info")).lower(); if sev not in
severities: sev = "info"` — the bucket key one finding lands in. -/
def sevKey (f : Finding) : String :=
  let sev := pyLower (f.severity.getD "info")
  if recognized sev then sev else "info"

/-- `severities[sev] += 1` for the coerced key of one finding. -/
def aggStep (c : SevCounts) (f : Finding) : SevCounts :=
  if sevKey f = "critical" then { c with critical := c.critical + 1 }
  else if sevKey f = "high" then { c with high := c.high + 1 }
  else if sevKey f = "medium" then { c with medium := c.medium + 1 }
  else if sevKey f = "low" then { c with low := c.low + 1 }
  else { c with info := c.info + 1 }

/-- `aggregate_by_severity` from src/backend/scanner.py: start from all-zero
counts and fold the per-item increment over the findings list in order. -/
def aggregate_by_severity (findings : List Finding) : SevCounts :=
  findings.foldl aggStep ⟨0, 0, 0, 0, 0⟩

/-- The lines appended for one finding inside the `## Findings` section of
`build_basic_report`. -/
def findingLines (f : Finding) : List String :=
  [ "### " ++ pyTitle (f.severity.getD "info") ++ " – "
      ++ f.description.getD "No description"
  , ""
  , "- Tool: `" ++ f.tool.getD "mobsfscan" ++ "`"
  , "" ]

/-- The disclaimer line emitted when the findings list is empty. -/
def noFindingsLine : String :=
  "_No findings were reported by the static scanner. This does not guarantee the app is secure._"

/-- The lines `build_basic_report` appends before the `if not findings`
branch: header plus `## Summary` section. -/
def summaryLines (apk_name : String) (sev_counts : SevCounts) : List String :=
  [ "# " ++ apk_name ++ " – Android Security Report"
  , ""
  , "## Summary"
  , ""
  , "- Total issues: **" ++ toString (sumCounts sev_counts) ++ "**"
  , "- Critical: " ++ toString sev_counts.critical
  , "- High: " ++ toString sev_counts.high
  , "- Medium: " ++ toString sev_counts.medium
  , "- Low: " ++ toString sev_counts.low
  , "- Info: " ++ toString sev_counts.info
  , "" ]

/-- The `lines` list built by `build_basic_report` before `"\n".join`. -/
def buildReportLines (apk_name : String) (findings : List Finding)
    (sev_counts : SevCounts) : List String :=
  if findings = [] then
    summaryLines apk_name sev_counts ++ [noFindingsLine]
  else
    summaryLines apk_name sev_counts ++ ["## Findings", ""]
      ++ findings.flatMap findingLines

/-- `build_basic_report` from src/backend/scanner.py. -/
def build_basic_report (apk_name : String) (findings : List Finding)
    (sev_counts : SevCounts) : String :=
  joinLines (buildReportLines apk_name findings sev_counts)

/-! ## External scanner adapter (`run_mobsfscan`) -/

/-- Shape of what the mobsfscan subprocess left on stdout, after
`result.stdout.strip()` and `json.loads`:
* `empty` — stripped stdout is the empty string;
* `notJson` — `json.loads` raises `JSONDecodeError`;
* `jsonNonDict` — valid JSON but not an object, so `data.get` raises
  `AttributeError` (caught by the outer `except Exception`);
* `jsonFindings` — a JSON object; `data.get("findings", [])` yields the
  given list. -/
inductive StdoutShape
  | empty
  | notJson (raw : String)
  | jsonNonDict
  | jsonFindings (fs : List Finding)
deriving Repr, DecidableEq

/-- Outcome of `subprocess.run(["mobsfscan", "-o", "-", apk_path], ...)`:
either the executable is absent (`FileNotFoundError`, caught by the outer
`except Exception`) or the process ran, returning an exit code and stdout.
`run_mobsfscan` never reads `result.returncode`. -/
inductive ToolOutcome
  | absent
  | ran (exitCode : Nat) (stdout : StdoutShape)
deriving Repr, DecidableEq

/-- `run_mobsfscan` from src/backend/scanner.py, as a function of the
subprocess outcome. Total: every exception path in the source returns a
value instead of raising. The exit code is never inspected. -/
def run_mobsfscan : ToolOutcome → List Finding
  | .absent => []
  | .ran _ .empty => []
  | .ran _ (.notJson _) => []
  | .ran _ .jsonNonDict => []
  | .ran _ (.jsonFindings fs) => fs

/-! ## File system and registry as association lists -/

/-- Lookup in an association list (first match). -/
def alistGet {α : Type} : List (String × α) → String → Option α
  | [], _ => none
  | (k, v) :: rest, key => if k = key then some v else alistGet rest key

/-- Insert/overwrite in an association list, keeping keys unique and
preserving insertion order — the behaviour of a Python dict assignment and
of `Path.write_text` on the reports directory. -/
def alistPut {α : Type} : List (String × α) → String → α → List (String × α)
  | [], key, v => [(key, v)]
  | (k, w) :: rest, key, v =>
    if k = key then (key, v) :: rest else (k, w) :: alistPut rest key v

/-- The reports directory: file name ↦ file text. -/
abbrev FS := List (String × String)

def fsWrite (fsys : FS) (name text : String) : FS := alistPut fsys name text

def fsRead (fsys : FS) (name : String) : Option String := alistGet fsys name

/-- A crude rendering of `json.dumps(findings, indent=2)`; the claims never
inspect the findings file's text, only that it is written. -/
def findingsJson (findings : List Finding) : String :=
  "[" ++ joinLines (findings.map (fun f =>
    "severity: " ++ toString (repr f.severity))) ++ "]"

/-! ## Scan orchestration (`scan_apk`, `run_scan_job`) -/

/-- Lifecycle status of a scan record. -/
inductive Status
  | queued
  | running
  | completed
  | error
deriving Repr, DecidableEq, Inhabited

/-- The transitions the Scan Record state machine allows:
`queued → running` and `running → completed | error`. -/
def statusStep (a b : Status) : Prop :=
  (a = .queued ∧ b = .running) ∨
    (a = .running ∧ (b = .completed ∨ b = .error))

/-- The environment one run of `scan_apk` executes in: the subprocess
outcome, whether each `write_text` succeeds (a failed write raises, a model
of file-I/O errors), and the outcome of `ai_generate_report` (`Except.error`
= it raised; `Except.ok md` = it returned the Markdown text `md`). -/
structure ScanEnv where
  tool : ToolOutcome
  findingsWriteOk : Bool
  reportWriteOk : Bool
  aiGen : Except String String
  aiWriteOk : Bool
deriving Repr

/-- The dictionary `scan_apk` returns. -/
structure ScanResult where
  apk_name : String
  findings : List Finding
  severity_counts : SevCounts
  total_findings : Nat
  findings_file : String
  report_file : String
  ai_report_file : Option String
deriving Repr, DecidableEq

/-- `scan_apk` from src/backend/scanner.py, on the reports-directory state.
Returns the file system after the writes that happened plus either the
result dict or the message of an uncaught exception. The AI block mirrors
the source exactly: the local `ai_report_file` is assigned *before*
`write_text`, so a failed AI write still leaves the name in the result
while the file is absent on disk; any failure inside the AI block is caught
and never escapes. -/
def scan_apk (env : ScanEnv) (apk_name : String) (ai : Bool) (fsys : FS) :
    FS × Except String ScanResult :=
  let findings := run_mobsfscan env.tool
  if !env.findingsWriteOk then (fsys, .error "findings write failed") else
  let fs1 := fsWrite fsys (apk_name ++ ".findings.json") (findingsJson findings)
  let severity_counts := aggregate_by_severity findings
  let total_findings := findings.length
  if !env.reportWriteOk then (fs1, .error "report write failed") else
  let fs2 := fsWrite fs1 (apk_name ++ ".report.md")
    (build_basic_report apk_name findings severity_counts)
  let aiStep : FS × Option String :=
    if ai then
      match env.aiGen with
      | .error _ => (fs2, none)
      | .ok md =>
        if env.aiWriteOk then
          (fsWrite fs2 (apk_name ++ ".ai_report.md") md,
           some (apk_name ++ ".ai_report.md"))
        else
          (fs2, some (apk_name ++ ".ai_report.md"))
    else (fs2, none)
  (aiStep.1, .ok
    { apk_name := apk_name
      findings := findings
      severity_counts := severity_counts
      total_findings := total_findings
      findings_file := apk_name ++ ".findings.json"
      report_file := apk_name ++ ".report.md"
      ai_report_file := aiStep.2 })

/-- A Scan Record as stored in the in-memory `SCANS` registry (the fields
the claims touch; form-field metadata is carried through unchanged). -/
structure ScanRecord where
  apk_name : String
  stored_apk : String
  status : Status
  created_at : String
  total_findings : Nat
  severity_counts : SevCounts
  findings_file : Option String := none
  report_file : Option String := none
  ai_report_file : Option String := none
  error : Option String := none
deriving Repr, DecidableEq

/-- The in-memory scan registry `SCANS`. -/
abbrev Registry := List (String × ScanRecord)

/-- `run_scan_job` from src/backend/app.py: mark the record running, call
the scanner, then mark it completed with the artifact names (or error with
the exception message). Notification calls have no effect on the registry
or the file system and are omitted. -/
def run_scan_job (env : ScanEnv) (scans : Registry) (fsys : FS)
    (scan_id apk_name : String) (ai : Bool) : Registry × FS :=
  match alistGet scans scan_id with
  | none => (scans, fsys)
  | some scan =>
    let scan1 := { scan with status := .running }
    let scans1 := alistPut scans scan_id scan1
    let (fs2, res) := scan_apk env apk_name ai fsys
    match res with
    | .ok r =>
      let scan2 := { scan1 with
        status := .completed
        apk_name := r.apk_name
        findings_file := some r.findings_file
        report_file := some r.report_file
        ai_report_file := r.ai_report_file
        total_findings := r.total_findings
        severity_counts := r.severity_counts }
      (alistPut scans1 scan_id scan2, fs2)
    | .error e =>
      (alistPut scans1 scan_id { scan1 with status := .error, error := some e }, fs2)

/-- The successive (status, reports-directory) snapshots the record with id
`scan_id` passes through during one `run_scan_job` call, starting from its
state at call time. -/
def run_scan_job_trace (env : ScanEnv) (scans : Registry) (fsys : FS)
    (scan_id apk_name : String) (ai : Bool) : List (Status × FS) :=
  match alistGet scans scan_id with
  | none => []
  | some scan =>
    (scan.status, fsys) :: (.running, fsys) ::
    (match scan_apk env apk_name ai fsys with
     | (fs2, .ok _) => [(.completed, fs2)]
     | (fs2, .error _) => [(.error, fs2)])

/-! ## HTTP API surface (src/backend/app.py)

Each endpoint is a function of the configured `API_KEYS` list, the request's
`X-API-Key` header (`none` = header absent) and the relevant server state,
returning `Except (Nat × String) α`: `.error (code, detail)` models
`HTTPException(status_code=code, detail=detail)`. -/

/-- `require_api_key`: `true` = the check passes (returns normally),
`false` = it raises 401. `None not in API_KEYS` always holds since the
configured keys are non-empty strings. -/
def require_api_key (apiKeys : List String) (x_api_key : Option String) : Bool :=
  if apiKeys = [] then true
  else
    match x_api_key with
    | none => false
    | some k => apiKeys.contains k

/-- The 401 error `require_api_key` raises. -/
def invalidKeyErr : Nat × String := (401, "Invalid API key")

/-- `GET /api/status`. The route never calls `require_api_key`; the
configured keys and the request header are ignored. -/
def api_status (_apiKeys : List String) (_x_api_key : Option String) :
    Except (Nat × String) (String × String) :=
  .ok ("status", "ok")

/-- `GET /`. Also ungated. -/
def rootEndpoint (_apiKeys : List String) (_x_api_key : Option String) :
    Except (Nat × String) (String × String) :=
  .ok ("message", "RedHawk Android Hunter API")

/-- `GET /api/scans`: gate, then all records sorted newest `created_at`
first (Python `list.sort(key=..., reverse=True)` is a stable descending
sort). -/
def list_scans (apiKeys : List String) (x_api_key : Option String)
    (scans : Registry) : Except (Nat × String) (List ScanRecord) :=
  if !require_api_key apiKeys x_api_key then .error invalidKeyErr
  else .ok ((scans.map Prod.snd).mergeSort
    (fun a b => b.created_at ≤ a.created_at))

/-- `GET /api/scans/{scan_id}`. -/
def get_scan (apiKeys : List String) (x_api_key : Option String)
    (scans : Registry) (scan_id : String) : Except (Nat × String) ScanRecord :=
  if !require_api_key apiKeys x_api_key then .error invalidKeyErr
  else
    match alistGet scans scan_id with
    | none => .error (404, "Scan not found")
    | some scan => .ok scan

/-- `GET /api/reports/{scan_id}/ai_report`: prefer the AI report file if
its name is set and the file exists, fall back to the baseline report file,
404 if neither resolves. -/
def get_ai_report (apiKeys : List String) (x_api_key : Option String)
    (scans : Registry) (fsys : FS) (scan_id : String) :
    Except (Nat × String) String :=
  if !require_api_key apiKeys x_api_key then .error invalidKeyErr
  else
    match alistGet scans scan_id with
    | none => .error (404, "Scan not found")
    | some scan =>
      let fromAi : Option String :=
        match scan.ai_report_file with
        | some f => if (fsRead fsys f).isSome then some f else none
        | none => none
      let path : Option String :=
        match fromAi with
        | some f => some f
        | none =>
          match scan.report_file with
          | some f => if (fsRead fsys f).isSome then some f else none
          | none => none
      match path with
      | none => .error (404, "Report file not found")
      | some f =>
        match fsRead fsys f with
        | some text => .ok text
        | none => .error (404, "Report file not found")

/-- What `POST /api/scan` hands to the caller and leaves behind: the JSON
response, the registry after the insert, the uploads directory after the
`write_bytes`, and the background task's arguments. -/
structure SubmitOutcome where
  response : Except (Nat × String) (String × String)
  scans : Registry
  uploads : FS
  task : Option (String × String × Bool)
deriving Repr

/-- `start_scan` (`POST /api/scan`): gate, reject filenames whose lowercase
form does not end in ".apk" with 400, otherwise store the upload under
`{scan_id}_{filename}`, create a queued record and schedule
`run_scan_job scan_id apk_path (ai.lower() == "true")`. The fresh
`uuid.uuid4()` and `datetime.utcnow()` are inputs. -/
def start_scan (apiKeys : List String) (x_api_key : Option String)
    (scans : Registry) (uploads : FS) (filename fileBytes : String)
    (ai : String) (scan_id now : String) : SubmitOutcome :=
  if !require_api_key apiKeys x_api_key then
    { response := .error invalidKeyErr, scans := scans, uploads := uploads
      task := none }
  else if !strEndsWith (pyLower filename) ".apk" then
    { response := .error (400, "Only .apk files are supported")
      scans := scans, uploads := uploads, task := none }
  else
    let apk_name := scan_id ++ "_" ++ filename
    let uploads1 := fsWrite uploads apk_name fileBytes
    let scan : ScanRecord :=
      { apk_name := filename
        stored_apk := apk_name
        status := .queued
        created_at := now
        total_findings := 0
        severity_counts := ⟨0, 0, 0, 0, 0⟩
        findings_file := none
        report_file := none
        ai_report_file := none
        error := none }
    { response := .ok (scan_id, "queued")
      scans := alistPut scans scan_id scan
      uploads := uploads1
      task := some (scan_id, apk_name, pyLower ai = "true") }


/-- A concrete scan environment for witnesses: the external tool is absent,
all writes succeed, AI generation returns "AI MD". -/
def envW : ScanEnv :=
  { tool := .absent
    findingsWriteOk := true
    reportWriteOk := true
    aiGen := .ok "AI MD"
    aiWriteOk := true }

/-- A concrete queued record, as `start_scan` creates it. -/
def recW : ScanRecord :=
  { apk_name := "x.apk"
    stored_apk := "id1_x.apk"
    status := .queued
    created_at := "t0"
    total_findings := 0
    severity_counts := ⟨0, 0, 0, 0, 0⟩ }

/-- A concrete registry holding `recW` under id "id1". -/
def scansW : Registry := [("id1", recW)]


/-! ## Lemmas about the severity aggregator -/

theorem sevKey_cases (f : Finding) :
    sevKey f = "critical" ∨ sevKey f = "high" ∨ sevKey f = "medium" ∨
      sevKey f = "low" ∨ sevKey f = "info" := by
  unfold sevKey
  by_cases h : recognized (pyLower (f.severity.getD "info"))
  · simp only [if_pos h]
    revert h
    simp only [recognized, Bool.or_eq_true, decide_eq_true_eq]
    tauto
  · simp [if_neg h]

theorem sumCounts_aggStep (c : SevCounts) (f : Finding) :
    sumCounts (aggStep c f) = sumCounts c + 1 := by
  unfold aggStep
  split_ifs <;> simp [sumCounts] <;> omega

theorem sumCounts_foldl (l : List Finding) (c : SevCounts) :
    sumCounts (l.foldl aggStep c) = sumCounts c + l.length := by
  induction l generalizing c with
  | nil => simp
  | cons f t ih =>
    rw [List.foldl_cons, ih, sumCounts_aggStep]
    simp [Nat.add_assoc, Nat.add_comm 1]

/-- C1: for every findings list, the five integer values of the mapping
returned by `aggregate_by_severity` sum exactly to the length of the input
list. -/
theorem aggregate_by_severity_sum_eq_length (findings : List Finding) :
    sumCounts (aggregate_by_severity findings) = findings.length := by
  unfold aggregate_by_severity
  rw [sumCounts_foldl]
  simp [sumCounts]

theorem aggStep_critical (c : SevCounts) (f : Finding) :
    (aggStep c f).critical =
      c.critical + (if sevKey f = "critical" then 1 else 0) := by
  unfold aggStep; split_ifs <;> simp_all

theorem aggStep_high (c : SevCounts) (f : Finding) :
    (aggStep c f).high = c.high + (if sevKey f = "high" then 1 else 0) := by
  unfold aggStep; split_ifs <;> simp_all

theorem aggStep_medium (c : SevCounts) (f : Finding) :
    (aggStep c f).medium = c.medium + (if sevKey f = "medium" then 1 else 0) := by
  unfold aggStep; split_ifs <;> simp_all

theorem aggStep_low (c : SevCounts) (f : Finding) :
    (aggStep c f).low = c.low + (if sevKey f = "low" then 1 else 0) := by
  unfold aggStep; split_ifs <;> simp_all

theorem aggStep_info (c : SevCounts) (f : Finding) :
    (aggStep c f).info = c.info + (if sevKey f = "info" then 1 else 0) := by
  unfold aggStep
  rcases sevKey_cases f with h | h | h | h | h <;> split_ifs <;> simp_all

/-- Closed form of the fold: each bucket is the count of findings whose
coerced key is that bucket. -/
theorem foldl_aggStep_countP (l : List Finding) (c : SevCounts) :
    l.foldl aggStep c =
      ⟨c.critical + l.countP (fun f => sevKey f = "critical"),
       c.high + l.countP (fun f => sevKey f = "high"),
       c.medium + l.countP (fun f => sevKey f = "medium"),
       c.low + l.countP (fun f => sevKey f = "low"),
       c.info + l.countP (fun f => sevKey f = "info")⟩ := by
  induction l generalizing c with
  | nil => simp
  | cons f t ih =>
    rw [List.foldl_cons, ih]
    simp only [List.countP_cons, aggStep_critical, aggStep_high, aggStep_medium,
      aggStep_low, aggStep_info, decide_eq_true_eq, SevCounts.mk.injEq]
    refine ⟨?_, ?_, ?_, ?_, ?_⟩ <;> split_ifs <;> omega

/-- C9: the severity aggregator has no dependency on input order — any
permutation of the findings list yields the same five-key mapping. -/
theorem aggregate_by_severity_perm (l₁ l₂ : List Finding) (h : l₁.Perm l₂) :
    aggregate_by_severity l₁ = aggregate_by_severity l₂ := by
  unfold aggregate_by_severity
  rw [foldl_aggStep_countP, foldl_aggStep_countP,
    h.countP_eq, h.countP_eq, h.countP_eq, h.countP_eq, h.countP_eq]

/-- Witness for C9 at a concrete findings list and permutation. -/
theorem aggregate_by_severity_perm_witness :
    aggregate_by_severity
        [{ severity := some "HIGH" }, { severity := some "low" }, {}] =
      aggregate_by_severity
        [{}, { severity := some "HIGH" }, { severity := some "low" }] :=
  aggregate_by_severity_perm _ _ (by decide)

theorem aggregate_append_one (l : List Finding) (f : Finding) :
    aggregate_by_severity (l ++ [f]) = aggStep (aggregate_by_severity l) f := by
  unfold aggregate_by_severity
  rw [List.foldl_append]
  rfl

theorem sevKey_of_missing (f : Finding) (h : f.severity = none) :
    sevKey f = "info" := by
  simp only [sevKey, h, Option.getD_none]
  decide

theorem sevKey_of_some (f : Finding) (s : String) (h : f.severity = some s) :
    sevKey f = if recognized (pyLower s) then pyLower s else "info" := by
  simp [sevKey, h]

theorem aggStep_of_key_critical (c : SevCounts) (f : Finding)
    (h : sevKey f = "critical") :
    aggStep c f = { c with critical := c.critical + 1 } := by
  unfold aggStep; rw [h]; simp

theorem aggStep_of_key_high (c : SevCounts) (f : Finding)
    (h : sevKey f = "high") : aggStep c f = { c with high := c.high + 1 } := by
  unfold aggStep; rw [h]; simp

theorem aggStep_of_key_medium (c : SevCounts) (f : Finding)
    (h : sevKey f = "medium") :
    aggStep c f = { c with medium := c.medium + 1 } := by
  unfold aggStep; rw [h]; simp

theorem aggStep_of_key_low (c : SevCounts) (f : Finding)
    (h : sevKey f = "low") : aggStep c f = { c with low := c.low + 1 } := by
  unfold aggStep; rw [h]; simp

theorem aggStep_of_key_info (c : SevCounts) (f : Finding)
    (h : sevKey f = "info") : aggStep c f = { c with info := c.info + 1 } := by
  unfold aggStep; rw [h]; simp

/-- C4: appending to any findings list one finding whose severity is
missing, or whose lowercased severity is none of the five recognized
values, increments exactly the info bucket; a finding whose lowercased
severity is one of the five recognized values increments exactly that
bucket, whatever the original letter case. -/
theorem aggregate_by_severity_bucketing (l : List Finding) (f : Finding) :
    ((f.severity = none ∨
        ∃ s, f.severity = some s ∧ pyLower s ≠ "critical" ∧
          pyLower s ≠ "high" ∧ pyLower s ≠ "medium" ∧ pyLower s ≠ "low" ∧
          pyLower s ≠ "info") →
      aggregate_by_severity (l ++ [f]) =
        { aggregate_by_severity l with
            info := (aggregate_by_severity l).info + 1 })
    ∧ (∀ s, f.severity = some s → pyLower s = "critical" →
        aggregate_by_severity (l ++ [f]) =
          { aggregate_by_severity l with
              critical := (aggregate_by_severity l).critical + 1 })
    ∧ (∀ s, f.severity = some s → pyLower s = "high" →
        aggregate_by_severity (l ++ [f]) =
          { aggregate_by_severity l with
              high := (aggregate_by_severity l).high + 1 })
    ∧ (∀ s, f.severity = some s → pyLower s = "medium" →
        aggregate_by_severity (l ++ [f]) =
          { aggregate_by_severity l with
              medium := (aggregate_by_severity l).medium + 1 })
    ∧ (∀ s, f.severity = some s → pyLower s = "low" →
        aggregate_by_severity (l ++ [f]) =
          { aggregate_by_severity l with
              low := (aggregate_by_severity l).low + 1 })
    ∧ (∀ s, f.severity = some s → pyLower s = "info" →
        aggregate_by_severity (l ++ [f]) =
          { aggregate_by_severity l with
              info := (aggregate_by_severity l).info + 1 }) := by
  refine ⟨?_, ?_, ?_, ?_, ?_, ?_⟩
  · rintro (h | ⟨s, hs, h1, h2, h3, h4, h5⟩)
    · rw [aggregate_append_one, aggStep_of_key_info _ _ (sevKey_of_missing f h)]
    · have hrec : recognized (pyLower s) = false := by
        simp [recognized, h1, h2, h3, h4, h5]
      have hk : sevKey f = "info" := by
        rw [sevKey_of_some f s hs, hrec]; simp
      rw [aggregate_append_one, aggStep_of_key_info _ _ hk]
  · intro s hs hlow
    have hk : sevKey f = "critical" := by
      rw [sevKey_of_some f s hs, hlow]; simp [recognized]
    rw [aggregate_append_one, aggStep_of_key_critical _ _ hk]
  · intro s hs hlow
    have hk : sevKey f = "high" := by
      rw [sevKey_of_some f s hs, hlow]; simp [recognized]
    rw [aggregate_append_one, aggStep_of_key_high _ _ hk]
  · intro s hs hlow
    have hk : sevKey f = "medium" := by
      rw [sevKey_of_some f s hs, hlow]; simp [recognized]
    rw [aggregate_append_one, aggStep_of_key_medium _ _ hk]
  · intro s hs hlow
    have hk : sevKey f = "low" := by
      rw [sevKey_of_some f s hs, hlow]; simp [recognized]
    rw [aggregate_append_one, aggStep_of_key_low _ _ hk]
  · intro s hs hlow
    have hk : sevKey f = "info" := by
      rw [sevKey_of_some f s hs, hlow]; simp [recognized]
    rw [aggregate_append_one, aggStep_of_key_info _ _ hk]

/-- Witness for C4: an unrecognized severity lands in info; an uppercase
recognized severity lands in its own bucket. -/
theorem aggregate_by_severity_bucketing_witness :
    aggregate_by_severity ([] ++ [{ severity := some "WEIRD" }]) =
      { aggregate_by_severity [] with
          info := (aggregate_by_severity ([] : List Finding)).info + 1 } ∧
    aggregate_by_severity ([] ++ [{ severity := some "HIGH" }]) =
      { aggregate_by_severity [] with
          high := (aggregate_by_severity ([] : List Finding)).high + 1 } :=
  ⟨(aggregate_by_severity_bucketing [] _).1
      (Or.inr ⟨"WEIRD", rfl, by decide, by decide, by decide, by decide,
        by decide⟩),
   (aggregate_by_severity_bucketing [] _).2.2.1 "HIGH" rfl (by decide)⟩

/-! ## Lemmas about the baseline report renderer -/

theorem joinLines_cons_prefix (a : String) (l : List String) :
    ∃ rest, joinLines (a :: l) = a ++ rest := by
  cases l with
  | nil => exact ⟨"", by simp [joinLines]⟩
  | cons b r =>
    exact ⟨"\n" ++ joinLines (b :: r), by simp [joinLines, String.append_assoc]⟩

theorem joinLines_mem_split (x : String) (l : List String) (h : x ∈ l) :
    ∃ pre post, joinLines l = pre ++ x ++ post := by
  induction l with
  | nil => cases h
  | cons a t ih =>
    rcases List.mem_cons.mp h with rfl | hx
    · obtain ⟨rest, hrest⟩ := joinLines_cons_prefix x t
      exact ⟨"", rest, by simpa using hrest⟩
    · cases t with
      | nil => cases hx
      | cons b r =>
        obtain ⟨pre, post, hsplit⟩ := ih hx
        refine ⟨a ++ "\n" ++ pre, post, ?_⟩
        show joinLines (a :: b :: r) = _
        rw [joinLines, hsplit]
        simp [String.append_assoc]

theorem buildReportLines_nil (n : String) (c : SevCounts) :
    buildReportLines n [] c = summaryLines n c ++ [noFindingsLine] := by
  simp [buildReportLines]

theorem buildReportLines_ne_nil (n : String) (fs : List Finding)
    (c : SevCounts) (h : fs ≠ []) :
    buildReportLines n fs c =
      summaryLines n c ++ ["## Findings", ""] ++ fs.flatMap findingLines := by
  simp [buildReportLines, h]

theorem findings_hdr_not_mem_summary (n : String) (c : SevCounts) :
    "## Findings" ∉ summaryLines n c := by
  intro hmem
  simp only [summaryLines, List.mem_cons, List.not_mem_nil, or_false] at hmem
  rcases hmem with h | h | h | h | h | h | h | h | h | h | h
  all_goals first
    | exact absurd h (by decide)
    | (have h2 := congrArg String.data h; simp [String.data_append] at h2)

theorem noFindings_not_mem_summary (n : String) (c : SevCounts) :
    noFindingsLine ∉ summaryLines n c := by
  intro hmem
  simp only [summaryLines, List.mem_cons, List.not_mem_nil, or_false] at hmem
  rcases hmem with h | h | h | h | h | h | h | h | h | h | h
  all_goals first
    | exact absurd h (by decide)
    | (have h2 := congrArg String.data h;
       simp [String.data_append, noFindingsLine] at h2)

theorem noFindings_not_mem_findingLines (f : Finding) :
    noFindingsLine ∉ findingLines f := by
  intro hmem
  simp only [findingLines, List.mem_cons, List.not_mem_nil, or_false] at hmem
  rcases hmem with h | h | h | h
  all_goals first
    | exact absurd h (by decide)
    | (have h2 := congrArg String.data h;
       simp [String.data_append, noFindingsLine] at h2)

/-- C7: for every package name, findings list and severity-counts mapping,
the rendered report begins with the `# <name> – Android Security Report`
header; the emitted lines contain the `## Summary` header, the total line
and the five per-severity count lines; the exact line `## Findings` is
emitted iff the findings list is non-empty; each finding contributes its
`### <Title-cased severity> – <description>` heading; the no-findings
disclaimer line is emitted iff the list is empty; and the concrete
single-finding example renders a report containing
`### High – Insecure storage`. -/
theorem build_basic_report_shape (n : String) (fs : List Finding)
    (c : SevCounts) :
    (∃ rest, build_basic_report n fs c =
        ("# " ++ n ++ " – Android Security Report") ++ rest)
    ∧ "## Summary" ∈ buildReportLines n fs c
    ∧ ("- Total issues: **" ++ toString (sumCounts c) ++ "**")
        ∈ buildReportLines n fs c
    ∧ ("- Critical: " ++ toString c.critical) ∈ buildReportLines n fs c
    ∧ ("- High: " ++ toString c.high) ∈ buildReportLines n fs c
    ∧ ("- Medium: " ++ toString c.medium) ∈ buildReportLines n fs c
    ∧ ("- Low: " ++ toString c.low) ∈ buildReportLines n fs c
    ∧ ("- Info: " ++ toString c.info) ∈ buildReportLines n fs c
    ∧ ("## Findings" ∈ buildReportLines n fs c ↔ fs ≠ [])
    ∧ (∀ f ∈ fs, ("### " ++ pyTitle (f.severity.getD "info") ++ " – "
        ++ f.description.getD "No description") ∈ buildReportLines n fs c)
    ∧ (noFindingsLine ∈ buildReportLines n fs c ↔ fs = [])
    ∧ (∃ pre post, build_basic_report "app.apk"
        [{ severity := some "high", description := some "Insecure storage" }]
        (aggregate_by_severity
          [{ severity := some "high", description := some "Insecure storage" }])
        = pre ++ "### High – Insecure storage" ++ post) := by
  have hhead : ∃ t, buildReportLines n fs c =
      ("# " ++ n ++ " – Android Security Report") :: t := by
    by_cases h : fs = [] <;> simp [buildReportLines, summaryLines, h]
  refine ⟨?_, ?_, ?_, ?_, ?_, ?_, ?_, ?_, ?_, ?_, ?_, ?_⟩
  · obtain ⟨t, ht⟩ := hhead
    unfold build_basic_report
    rw [ht]
    exact joinLines_cons_prefix _ t
  · by_cases h : fs = [] <;> simp [buildReportLines, summaryLines, h]
  · by_cases h : fs = [] <;> simp [buildReportLines, summaryLines, h]
  · by_cases h : fs = [] <;> simp [buildReportLines, summaryLines, h]
  · by_cases h : fs = [] <;> simp [buildReportLines, summaryLines, h]
  · by_cases h : fs = [] <;> simp [buildReportLines, summaryLines, h]
  · by_cases h : fs = [] <;> simp [buildReportLines, summaryLines, h]
  · by_cases h : fs = [] <;> simp [buildReportLines, summaryLines, h]
  · constructor
    · intro hmem
      intro hnil
      subst hnil
      rw [buildReportLines_nil] at hmem
      rcases List.mem_append.mp hmem with h | h
      · exact findings_hdr_not_mem_summary n c h
      · exact absurd (List.mem_singleton.mp h) (by decide)
    · intro hne
      rw [buildReportLines_ne_nil n fs c hne]
      exact List.mem_append.mpr (Or.inl (List.mem_append.mpr (Or.inr (by simp))))
  · intro f hf
    have hne : fs ≠ [] := by rintro rfl; cases hf
    rw [buildReportLines_ne_nil n fs c hne]
    refine List.mem_append.mpr (Or.inr (List.mem_flatMap.mpr ⟨f, hf, ?_⟩))
    simp [findingLines]
  · constructor
    · intro hmem
      by_contra hne
      rw [buildReportLines_ne_nil n fs c hne] at hmem
      rcases List.mem_append.mp hmem with h | h
      · rcases List.mem_append.mp h with h | h
        · exact noFindings_not_mem_summary n c h
        · rcases List.mem_cons.mp h with h | h
          · exact absurd h (by decide)
          · exact absurd (List.mem_singleton.mp h) (by decide)
      · obtain ⟨f, _, h⟩ := List.mem_flatMap.mp h
        exact noFindings_not_mem_findingLines f h
    · intro hnil
      subst hnil
      rw [buildReportLines_nil]
      simp
  · have hmem : "### High – Insecure storage" ∈ buildReportLines "app.apk"
        [{ severity := some "high", description := some "Insecure storage" }]
        (aggregate_by_severity
          [{ severity := some "high", description := some "Insecure storage" }]) := by
      decide
    exact joinLines_mem_split _ _ hmem

/-! ## Association-list and artifact-name lemmas -/

theorem alistGet_put_self {α : Type} (l : List (String × α)) (k : String)
    (v : α) : alistGet (alistPut l k v) k = some v := by
  induction l with
  | nil => simp [alistPut, alistGet]
  | cons p rest ih =>
    obtain ⟨k', v'⟩ := p
    by_cases h : k' = k <;> simp [alistPut, alistGet, h, ih]

theorem alistGet_put_ne {α : Type} (l : List (String × α)) (k k' : String)
    (v : α) (h : k ≠ k') : alistGet (alistPut l k v) k' = alistGet l k' := by
  induction l with
  | nil => simp [alistPut, alistGet, h]
  | cons p rest ih =>
    obtain ⟨k₀, v₀⟩ := p
    by_cases h0 : k₀ = k
    · subst h0
      simp [alistPut, alistGet, h]
    · by_cases h1 : k₀ = k' <;> simp [alistPut, alistGet, h0, h1, ih, Ne.symm h]

theorem alistPut_put_self {α : Type} (l : List (String × α)) (k : String)
    (v w : α) : alistPut (alistPut l k v) k w = alistPut l k w := by
  induction l with
  | nil => simp [alistPut]
  | cons p rest ih =>
    obtain ⟨k', v'⟩ := p
    by_cases h : k' = k <;> simp [alistPut, h, ih]

theorem append_ne_append_of_length (a s t : String)
    (h : s.length ≠ t.length) : a ++ s ≠ a ++ t := by
  intro e
  have h2 := congrArg String.length e
  simp [String.length_append] at h2
  exact h h2

theorem report_name_ne_findings_name (apk : String) :
    apk ++ ".report.md" ≠ apk ++ ".findings.json" :=
  append_ne_append_of_length _ _ _ (by decide)

theorem findings_name_ne_report_name (apk : String) :
    apk ++ ".findings.json" ≠ apk ++ ".report.md" :=
  append_ne_append_of_length _ _ _ (by decide)

theorem ai_name_ne_report_name (apk : String) :
    apk ++ ".ai_report.md" ≠ apk ++ ".report.md" :=
  append_ne_append_of_length _ _ _ (by decide)

theorem report_name_ne_ai_name (apk : String) :
    apk ++ ".report.md" ≠ apk ++ ".ai_report.md" :=
  append_ne_append_of_length _ _ _ (by decide)

theorem ai_name_ne_findings_name (apk : String) :
    apk ++ ".ai_report.md" ≠ apk ++ ".findings.json" :=
  append_ne_append_of_length _ _ _ (by decide)

theorem findings_name_ne_ai_name (apk : String) :
    apk ++ ".findings.json" ≠ apk ++ ".ai_report.md" :=
  append_ne_append_of_length _ _ _ (by decide)

/-! ## Lemmas about the scan orchestrator -/

theorem scan_apk_ok_spec (env : ScanEnv) (apk_name : String) (ai : Bool)
    (fsys fs2 : FS) (r : ScanResult)
    (h : scan_apk env apk_name ai fsys = (fs2, Except.ok r)) :
    r.apk_name = apk_name
    ∧ r.report_file = apk_name ++ ".report.md"
    ∧ r.findings_file = apk_name ++ ".findings.json"
    ∧ r.findings = run_mobsfscan env.tool
    ∧ r.severity_counts = aggregate_by_severity (run_mobsfscan env.tool)
    ∧ r.total_findings = (run_mobsfscan env.tool).length
    ∧ fsRead fs2 (apk_name ++ ".report.md") =
        some (build_basic_report apk_name (run_mobsfscan env.tool)
          (aggregate_by_severity (run_mobsfscan env.tool)))
    ∧ (r.ai_report_file =
        if ai then
          match env.aiGen with
          | .ok _ => some (apk_name ++ ".ai_report.md")
          | .error _ => none
        else none)
    ∧ (∀ md, ai = true → env.aiGen = Except.ok md → env.aiWriteOk = true →
        fsRead fs2 (apk_name ++ ".ai_report.md") = some md)
    ∧ ((ai = false ∨ (∃ e, env.aiGen = Except.error e) ∨ env.aiWriteOk = false) →
        fsRead fs2 (apk_name ++ ".ai_report.md") =
          fsRead fsys (apk_name ++ ".ai_report.md")) := by
  obtain ⟨tool, fw, rw0, aig, aiw⟩ := env
  cases fw with
  | false => simp [scan_apk] at h
  | true =>
    cases rw0 with
    | false => simp [scan_apk] at h
    | true =>
      cases ai <;> rcases aig with e | md <;> cases aiw <;>
        · simp only [scan_apk, Bool.not_true, Bool.false_eq_true, if_false,
            Prod.mk.injEq, Except.ok.injEq] at h
          obtain ⟨hfs, hr⟩ := h
          subst hfs
          subst hr
          refine ⟨rfl, rfl, rfl, rfl, rfl, rfl, ?_, ?_, ?_, ?_⟩ <;>
            simp [fsRead, fsWrite, alistGet_put_self, alistGet_put_ne,
              ai_name_ne_report_name, report_name_ne_ai_name,
              ai_name_ne_findings_name, findings_name_ne_ai_name,
              report_name_ne_findings_name, findings_name_ne_report_name]

/-- C5: during one background job on a record that is queued at call time,
the status snapshots follow only the allowed forward transitions (so the
status never reverts); every snapshot with status completed already has the
baseline report file on disk; and if the final record is completed, the
baseline report file it references is exactly the one written. -/
theorem run_scan_job_status_monotone (env : ScanEnv) (scans : Registry)
    (fsys : FS) (scan_id apk_name : String) (ai : Bool) (scan : ScanRecord)
    (hfound : alistGet scans scan_id = some scan)
    (hqueued : scan.status = .queued) :
    List.Chain' statusStep
      ((run_scan_job_trace env scans fsys scan_id apk_name ai).map Prod.fst)
    ∧ (∀ p ∈ run_scan_job_trace env scans fsys scan_id apk_name ai,
        p.1 = .completed →
          (fsRead p.2 (apk_name ++ ".report.md")).isSome = true)
    ∧ (∀ rec, alistGet (run_scan_job env scans fsys scan_id apk_name ai).1
          scan_id = some rec → rec.status = .completed →
        rec.report_file = some (apk_name ++ ".report.md")
        ∧ (fsRead (run_scan_job env scans fsys scan_id apk_name ai).2
            (apk_name ++ ".report.md")).isSome = true) := by
  rcases hsa : scan_apk env apk_name ai fsys with ⟨fs2, res⟩
  cases res with
  | ok r =>
    obtain ⟨_, hrep, _, _, _, _, hread, _, _, _⟩ :=
      scan_apk_ok_spec env apk_name ai fsys fs2 r hsa
    refine ⟨?_, ?_, ?_⟩
    · simp [run_scan_job_trace, hfound, hsa, List.chain'_cons, statusStep,
        hqueued]
    · intro p hp hcomp
      simp only [run_scan_job_trace, hfound, hsa, List.mem_cons,
        List.not_mem_nil, or_false] at hp
      rcases hp with rfl | rfl | rfl
      · rw [hqueued] at hcomp; cases hcomp
      · cases hcomp
      · simp [hread]
    · intro rec hrec hcomp
      simp only [run_scan_job, hfound, hsa, alistPut_put_self,
        alistGet_put_self, Option.some.injEq] at hrec
      subst hrec
      constructor
      · simp [hrep]
      · simp [run_scan_job, hfound, hsa, hread]
  | error e =>
    refine ⟨?_, ?_, ?_⟩
    · simp [run_scan_job_trace, hfound, hsa, List.chain'_cons, statusStep,
        hqueued]
    · intro p hp hcomp
      simp only [run_scan_job_trace, hfound, hsa, List.mem_cons,
        List.not_mem_nil, or_false] at hp
      rcases hp with rfl | rfl | rfl
      · rw [hqueued] at hcomp; cases hcomp
      · cases hcomp
      · cases hcomp
    · intro rec hrec hcomp
      simp only [run_scan_job, hfound, hsa, alistPut_put_self,
        alistGet_put_self, Option.some.injEq] at hrec
      subst hrec
      cases hcomp

theorem scan_apk_isOk (env : ScanEnv) (apk_name : String) (ai : Bool)
    (fsys : FS) (hfw : env.findingsWriteOk = true)
    (hrw : env.reportWriteOk = true) :
    ∃ fs2 r, scan_apk env apk_name ai fsys = (fs2, Except.ok r) := by
  obtain ⟨tool, fw, rw0, aig, aiw⟩ := env
  cases fw with
  | false => cases hfw
  | true =>
    cases rw0 with
    | false => cases hrw
    | true => cases ai <;> rcases aig with e | md <;> cases aiw <;>
        exact ⟨_, _, rfl⟩

/-- C6: with the gate passing and a record present, (i) while the record's
artifact fields are still unset (as they are until completion) the report
endpoint answers 404; after a completed background run, (ii) if AI was
requested and generation and persist succeeded the endpoint returns the AI
Markdown, (iii) if AI was disabled, generation raised, or the AI write
failed, it returns the baseline report text (given no stale AI file
pre-existed); (iv) a record whose referenced files are both absent on disk
yields 404; and (v) the final record is completed whatever the AI outcome —
an AI failure never sets the status to error. -/
theorem get_ai_report_resolution (apiKeys : List String) (key : Option String)
    (env : ScanEnv) (scans : Registry) (fsys : FS)
    (scan_id apk_name : String) (ai : Bool) (scan : ScanRecord)
    (hauth : require_api_key apiKeys key = true)
    (hfound : alistGet scans scan_id = some scan)
    (hfw : env.findingsWriteOk = true) (hrw : env.reportWriteOk = true) :
    ((scan.report_file = none ∧ scan.ai_report_file = none) →
      get_ai_report apiKeys key scans fsys scan_id =
        .error (404, "Report file not found"))
    ∧ (∀ md, ai = true → env.aiGen = Except.ok md → env.aiWriteOk = true →
        get_ai_report apiKeys key
            (run_scan_job env scans fsys scan_id apk_name ai).1
            (run_scan_job env scans fsys scan_id apk_name ai).2 scan_id
          = .ok md)
    ∧ ((ai = false ∨ (∃ e, env.aiGen = Except.error e) ∨
          env.aiWriteOk = false) →
        fsRead fsys (apk_name ++ ".ai_report.md") = none →
        get_ai_report apiKeys key
            (run_scan_job env scans fsys scan_id apk_name ai).1
            (run_scan_job env scans fsys scan_id apk_name ai).2 scan_id
          = .ok (build_basic_report apk_name (run_mobsfscan env.tool)
              (aggregate_by_severity (run_mobsfscan env.tool))))
    ∧ (∀ (rec : ScanRecord) (fs0 : FS) (a rp : String),
        rec.ai_report_file = some a → rec.report_file = some rp →
        fsRead fs0 a = none → fsRead fs0 rp = none →
        get_ai_report apiKeys key [(scan_id, rec)] fs0 scan_id =
          .error (404, "Report file not found"))
    ∧ (∃ rec', alistGet (run_scan_job env scans fsys scan_id apk_name ai).1
          scan_id = some rec' ∧ rec'.status = .completed) := by
  obtain ⟨fs2, r, hsa⟩ := scan_apk_isOk env apk_name ai fsys hfw hrw
  obtain ⟨hname, hrep, hfind, hfnd, hsev, htot, hread, hai, haiRead, haiFresh⟩ :=
    scan_apk_ok_spec env apk_name ai fsys fs2 r hsa
  have hjob : run_scan_job env scans fsys scan_id apk_name ai =
      (alistPut scans scan_id
        { scan with
            status := .completed
            apk_name := r.apk_name
            findings_file := some r.findings_file
            report_file := some r.report_file
            ai_report_file := r.ai_report_file
            total_findings := r.total_findings
            severity_counts := r.severity_counts },
       fs2) := by
    simp [run_scan_job, hfound, hsa, alistPut_put_self]
  refine ⟨?_, ?_, ?_, ?_, ?_⟩
  · rintro ⟨hA, hB⟩
    simp [get_ai_report, hauth, hfound, hA, hB]
  · intro md hai' haig haiw
    subst hai'
    have hfile : r.ai_report_file = some (apk_name ++ ".ai_report.md") := by
      rw [hai, haig]
      simp
    rw [hjob]
    simp [get_ai_report, hauth, alistGet_put_self, hfile,
      haiRead md rfl haig haiw]
  · intro hfb hfresh
    have hfs2ai : fsRead fs2 (apk_name ++ ".ai_report.md") = none := by
      rw [haiFresh hfb, hfresh]
    have hform : r.ai_report_file = none ∨
        r.ai_report_file = some (apk_name ++ ".ai_report.md") := by
      rw [hai]
      cases ai
      · exact Or.inl rfl
      · cases env.aiGen <;> simp
    rw [hjob]
    rcases hform with hformN | hformS
    · simp [get_ai_report, hauth, alistGet_put_self, hformN, hrep, hread]
    · simp [get_ai_report, hauth, alistGet_put_self, hformS, hfs2ai, hrep,
        hread]
  · intro rec fs0 a rp hA hRp hfa hfrp
    simp [get_ai_report, hauth, alistGet, hA, hRp, hfa, hfrp]
  · rw [hjob]
    exact ⟨_, alistGet_put_self _ _ _, rfl⟩

/-- Witness for C5: the concrete queued record and environment. -/
theorem run_scan_job_status_monotone_witness :
    List.Chain' statusStep
      ((run_scan_job_trace envW scansW [] "id1" "x.apk" true).map Prod.fst)
    ∧ (∀ p ∈ run_scan_job_trace envW scansW [] "id1" "x.apk" true,
        p.1 = .completed →
          (fsRead p.2 ("x.apk" ++ ".report.md")).isSome = true)
    ∧ (∀ rec, alistGet (run_scan_job envW scansW [] "id1" "x.apk" true).1
          "id1" = some rec → rec.status = .completed →
        rec.report_file = some ("x.apk" ++ ".report.md")
        ∧ (fsRead (run_scan_job envW scansW [] "id1" "x.apk" true).2
            ("x.apk" ++ ".report.md")).isSome = true) :=
  run_scan_job_status_monotone envW scansW [] "id1" "x.apk" true recW
    (by decide) rfl

/-- Witness for C6: with AI requested and succeeding, the endpoint returns
the AI Markdown after the run. -/
theorem get_ai_report_resolution_witness :
    get_ai_report [] none
        (run_scan_job envW scansW [] "id1" "x.apk" true).1
        (run_scan_job envW scansW [] "id1" "x.apk" true).2 "id1"
      = .ok "AI MD" :=
  (get_ai_report_resolution [] none envW scansW [] "id1" "x.apk" true recW
    rfl (by decide) rfl rfl).2.1 "AI MD" rfl rfl rfl

/-- C3 counterexample: the adapter never inspects the exit status, so an
invocation in which the tool exits non-zero (exit code 1) but prints a
valid JSON findings object to stdout returns that parsed findings list,
not the empty list the claim requires. -/
theorem run_mobsfscan_nonzero_counterexample :
    run_mobsfscan (.ran 1 (.jsonFindings [{ severity := some "high" }]))
        = [{ severity := some "high" }]
    ∧ run_mobsfscan (.ran 1 (.jsonFindings [{ severity := some "high" }]))
        ≠ ([] : List Finding) :=
  ⟨rfl, by decide⟩

/-- C3 amended: the adapter is total (no exception escapes it) and returns
the empty findings list whenever the tool is absent, its stdout strips to
empty, its stdout is not JSON, or its stdout is JSON but not an object;
the exit status is never examined, so whenever a JSON findings object is
on stdout its findings list is returned whatever the exit code. -/
theorem run_mobsfscan_degrades (ec : Nat) (raw : String)
    (fs : List Finding) :
    run_mobsfscan .absent = []
    ∧ run_mobsfscan (.ran ec .empty) = []
    ∧ run_mobsfscan (.ran ec (.notJson raw)) = []
    ∧ run_mobsfscan (.ran ec .jsonNonDict) = []
    ∧ run_mobsfscan (.ran ec (.jsonFindings fs)) = fs :=
  ⟨rfl, rfl, rfl, rfl, rfl⟩

/-- C2 counterexample: with the key set configured as ["secret"] and the
API-key header absent, GET /api/status still answers 200 {"status":"ok"} —
the status route never invokes `require_api_key`, so not every HTTP
endpoint rejects with 401 (the gate itself would have rejected, second
conjunct). -/
theorem api_status_ungated_counterexample :
    api_status ["secret"] none = .ok ("status", "ok")
    ∧ require_api_key ["secret"] none = false :=
  ⟨rfl, by decide⟩

/-- C2 amended: when the key set is non-empty and the header is absent or
not in the set, the four endpoints that invoke `require_api_key`
(list scans, get scan, get report, submit) reject with 401 and the submit
endpoint leaves the registry untouched; when the key set is empty the
check passes for every request; GET /api/status and GET / are not gated
and answer normally regardless. -/
theorem api_key_gating (apiKeys : List String) (key : Option String)
    (scans : Registry) (fsys uploads : FS)
    (scan_id filename bytes ai sid now : String)
    (hkeys : apiKeys ≠ [])
    (hbad : ∀ k, key = some k → k ∉ apiKeys) :
    (list_scans apiKeys key scans = .error invalidKeyErr
      ∧ get_scan apiKeys key scans scan_id = .error invalidKeyErr
      ∧ get_ai_report apiKeys key scans fsys scan_id = .error invalidKeyErr
      ∧ (start_scan apiKeys key scans uploads filename bytes ai sid
          now).response = .error invalidKeyErr
      ∧ (start_scan apiKeys key scans uploads filename bytes ai sid
          now).scans = scans)
    ∧ (∀ key2 : Option String, require_api_key [] key2 = true)
    ∧ api_status apiKeys key = .ok ("status", "ok")
    ∧ rootEndpoint apiKeys key = .ok ("message", "RedHawk Android Hunter API")
    := by
  have hfail : require_api_key apiKeys key = false := by
    unfold require_api_key
    rw [if_neg hkeys]
    cases key with
    | none => rfl
    | some k =>
      have := hbad k rfl
      simpa using this
  refine ⟨⟨?_, ?_, ?_, ?_, ?_⟩, ?_, rfl, rfl⟩
  · simp [list_scans, hfail]
  · simp [get_scan, hfail]
  · simp [get_ai_report, hfail]
  · simp [start_scan, hfail]
  · simp [start_scan, hfail]
  · intro key2
    simp [require_api_key]

/-- Witness for C2 amended: configured key "secret", mismatched header. -/
theorem api_key_gating_witness :
    list_scans ["secret"] (some "wrong") [] = .error invalidKeyErr
    ∧ (start_scan ["secret"] (some "wrong") [] [] "a.apk" "b" "true" "id"
        "t").scans = [] :=
  ⟨(api_key_gating ["secret"] (some "wrong") [] [] [] "x" "a.apk" "b" "true"
      "id" "t" (by decide) (by decide)).1.1,
   (api_key_gating ["secret"] (some "wrong") [] [] [] "x" "a.apk" "b" "true"
      "id" "t" (by decide) (by decide)).1.2.2.2.2⟩

/-- C8: when the gate passes and the uploaded filename does not end in
".apk" after lowercasing, the submit endpoint responds 400, the registry
and uploads directory are unchanged, no identifier is returned and no
background job is scheduled. -/
theorem start_scan_rejects_bad_extension (apiKeys : List String)
    (key : Option String) (scans : Registry) (uploads : FS)
    (filename bytes ai scan_id now : String)
    (hauth : require_api_key apiKeys key = true)
    (hext : strEndsWith (pyLower filename) ".apk" = false) :
    (start_scan apiKeys key scans uploads filename bytes ai scan_id
        now).response = .error (400, "Only .apk files are supported")
    ∧ (start_scan apiKeys key scans uploads filename bytes ai scan_id
        now).scans = scans
    ∧ (start_scan apiKeys key scans uploads filename bytes ai scan_id
        now).uploads = uploads
    ∧ (start_scan apiKeys key scans uploads filename bytes ai scan_id
        now).task = none := by
  refine ⟨?_, ?_, ?_, ?_⟩ <;> simp [start_scan, hauth, hext]

/-- Witness for C8: a ".txt" upload is rejected and the registry stays
empty. -/
theorem start_scan_rejects_bad_extension_witness :
    (start_scan [] none [] [] "evil.txt" "bytes" "true" "id1" "t0").response
        = .error (400, "Only .apk files are supported")
    ∧ (start_scan [] none [] [] "evil.txt" "bytes" "true" "id1" "t0").scans
        = [] :=
  ⟨(start_scan_rejects_bad_extension [] none [] [] "evil.txt" "bytes" "true"
      "id1" "t0" rfl (by decide)).1,
   (start_scan_rejects_bad_extension [] none [] [] "evil.txt" "bytes" "true"
      "id1" "t0" rfl (by decide)).2.1⟩

theorem pyLower_append (a b : String) :
    pyLower (a ++ b) = pyLower a ++ pyLower b := by
  apply String.ext
  simp [pyLower, String.data_append]

theorem strEndsWith_lower_apk (stem ext : String)
    (h : pyLower ext = ".apk") :
    strEndsWith (pyLower (stem ++ ext)) ".apk" = true := by
  rw [pyLower_append, h]
  unfold strEndsWith
  rw [String.data_append]
  simp [List.isSuffixOf_iff_suffix]

/-- C10: the extension check lowercases the filename first, so a filename
ending in ".apk" in any mixture of case (any suffix whose lowercase form is
".apk") is accepted: the response is the queued identifier, and a fresh
Scan Record in status queued is created in the registry. -/
theorem start_scan_accepts_case_insensitive (apiKeys : List String)
    (key : Option String) (scans : Registry) (uploads : FS)
    (stem ext bytes ai scan_id now : String)
    (hauth : require_api_key apiKeys key = true)
    (hext : pyLower ext = ".apk") :
    (start_scan apiKeys key scans uploads (stem ++ ext) bytes ai scan_id
        now).response = .ok (scan_id, "queued")
    ∧ alistGet (start_scan apiKeys key scans uploads (stem ++ ext) bytes ai
        scan_id now).scans scan_id = some
        { apk_name := stem ++ ext
          stored_apk := scan_id ++ "_" ++ (stem ++ ext)
          status := .queued
          created_at := now
          total_findings := 0
          severity_counts := ⟨0, 0, 0, 0, 0⟩ } := by
  have he := strEndsWith_lower_apk stem ext hext
  constructor
  · simp [start_scan, hauth, he]
  · simp [start_scan, hauth, he, alistGet_put_self]

/-- Witness for C10: "app.Apk" (mixed case) is accepted and queued. -/
theorem start_scan_accepts_case_insensitive_witness :
    (start_scan [] none [] [] ("app" ++ ".Apk") "b" "true" "id1"
        "t0").response = .ok ("id1", "queued")
    ∧ alistGet (start_scan [] none [] [] ("app" ++ ".Apk") "b" "true" "id1"
        "t0").scans "id1" = some
        { apk_name := "app" ++ ".Apk"
          stored_apk := "id1" ++ "_" ++ ("app" ++ ".Apk")
          status := .queued
          created_at := "t0"
          total_findings := 0
          severity_counts := ⟨0, 0, 0, 0, 0⟩ } :=
  start_scan_accepts_case_insensitive [] none [] [] "app" ".Apk" "b" "true"
    "id1" "t0" rfl (by decide)
